import Mathlib

/-
Shallow embedding of src/data_handler/handlers/loan_states/hashtack_v0/interest_rate.py
(class HashstackV0InterestRate).  Python integers are modelled as Int,
Decimal arithmetic as exact rationals, and dictionaries keyed by token name
as total functions from String.  External collaborators (the API connector,
the database and the chain-height query) appear as explicit parameters or
as fuel.  Components that belong to this repository but are absent from src
(handlers.helpers.InterestRateState, handler_tools.constants,
handler_tools.api_connector, db.models.InterestRate) are modelled from the
spec and carry a doc comment saying so.
-/

/-- Chain event as consumed by calculate_interest_rates.  The raw hexadecimal
data fields of the Python event are represented by their decoded values:
dataToken stands for data[0] (the token identifier), and dataBorrow and
dataSupply stand for int(data[1], 16) and int(data[2], 16). -/
structure Event where
  block_number : Int
  timestamp : Int
  key_name : String
  dataToken : String
  dataBorrow : Int
  dataSupply : Int
deriving DecidableEq

/-- Modelled from the spec: persisted snapshot record (db.models.InterestRate,
absent from src): protocol identifier, block number, timestamp of last update
and the two accumulator mappings (spec section 3, InterestRate snapshot). -/
structure InterestRate where
  block : Int
  timestamp : Int
  protocol_id : String
  collateral : String → ℚ
  debt : String → ℚ

/-- Zero snapshot, used only as the default value when projecting an Option
in theorem statements. -/
def zeroSnap : InterestRate := ⟨0, 0, "", fun _ => 0, fun _ => 0⟩

/-- SECONDS_IN_YEAR = Decimal(365 * 24 * 60 * 60), interest_rate.py line 18. -/
def SECONDS_IN_YEAR : ℚ := 31536000

/-- Modelled from the spec: the protocol identifier constant HASHSTACK_ID
(ProtocolIDs.HASHSTACK_V0.value; handler_tools.constants is absent from src).
Its concrete text is irrelevant to every claim. -/
def HASHSTACK_ID : String := "Hashstack_v0"

/-- PAGINATION_SIZE = 1000, interest_rate.py line 24. -/
def PAGINATION_SIZE : Int := 1000

/-- percents_decimals_shift = Decimal("0.0001"), interest_rate.py line 75. -/
def percents_decimals_shift : ℚ := 1 / 10000

/-- Modelled from the spec: TOKEN_MAPPING, the fixed lookup table from raw
token identifiers to token names (handler_tools.constants is absent from
src).  The Python TOKEN_MAPPING.get(key, "") is modelled by returning the
empty string for unknown identifiers; representative identifiers stand for
the on-chain addresses. -/
def TOKEN_MAPPING (tid : String) : String :=
  if tid = "0x1" then "ETH"
  else if tid = "0x2" then "USDC"
  else if tid = "0x3" then "USDT"
  else ""

/-- Pointwise update of a total map, modelling a Python dict assignment. -/
def upd {α : Type} (f : String → α) (k : String) (v : α) : String → α :=
  fun x => if x = k then v else f x

/-- State of the accrual fold.  It combines the fields of
handlers.helpers.InterestRateState (current_block, current_timestamp,
token_timestamps and the two cumulative maps) with the instance attribute
self.last_block_data of HashstackV0InterestRate, which the fold body reads
(line 91) and which _add_block_data mutates (line 66) during the fold. -/
structure FoldState where
  current_block : Int
  current_timestamp : Int
  token_timestamps : String → Int
  cum_collateral : String → ℚ
  cum_debt : String → ℚ
  last_block_data : Option InterestRate

/-- Modelled from the spec: construction of InterestRateState
(handlers.helpers is absent from src).  Per spec section 3, the state is
seeded either from a fresh zero state (token timestamps all 0, the
uninitialized sentinel; accumulators 0) or from the last persisted snapshot
(accumulator mappings copied from the record; the single stored timestamp of
last update seeds current_timestamp and every token timestamp, since the
snapshot stores no per-token timestamps).  current_block starts at the block
number of the first event (line 77 passes self.events[0]["block_number"]). -/
def initState (firstBlock : Int) (last : Option InterestRate) : FoldState :=
  match last with
  | none => ⟨firstBlock, 0, fun _ => 0, fun _ => 0, fun _ => 0, none⟩
  | some r => ⟨firstBlock, r.timestamp, fun _ => r.timestamp, r.collateral, r.debt, some r⟩

/-- Modelled from the spec: InterestRateState.build_interest_rate_model
(handlers.helpers is absent from src); per spec section 4.4 it is a pure
projection copying the accumulator mappings and block number (plus the
timestamp linkage field) into an immutable record. -/
def build_interest_rate_model (s : FoldState) (pid : String) : InterestRate :=
  ⟨s.current_block, s.current_timestamp, pid, s.cum_collateral, s.cum_debt⟩

/-- Snapshots emitted while processing one event: lines 81 and 82 emit one
snapshot of the pre-event state when the block number of the event differs
from current_block. -/
def emits (s : FoldState) (e : Event) : List InterestRate :=
  if s.current_block ≠ e.block_number then [build_interest_rate_model s HASHSTACK_ID] else []

/-- Emission stage of the loop body (lines 81 and 82): when the block number
of the event differs from current_block, _add_block_data stores the emitted
snapshot as self.last_block_data before the rest of the body runs. -/
def stepStage1 (s : FoldState) (e : Event) : FoldState :=
  if s.current_block ≠ e.block_number then
    { s with last_block_data := some (build_interest_rate_model s HASHSTACK_ID) }
  else s

/-- State transition for one event, mirroring the loop body of
calculate_interest_rates (lines 79 to 108).  When a snapshot is emitted,
_add_block_data also stores it as self.last_block_data before the rest of the
body runs; the token and key guard (lines 85 to 88) and the baseline guard
(lines 91 to 94) only advance current_block; the accrual branch (lines 97 to
108) sets current_timestamp, computes seconds_passed and the two deltas and
applies update_state_cumulative_data, which (modelled from the spec, the
helpers module being absent from src) adds the deltas to the cumulative maps,
sets the stored token timestamp to current_timestamp and advances
current_block to the block argument. -/
def stepState (s : FoldState) (e : Event) : FoldState :=
  let s1 := stepStage1 s e
  let tok := TOKEN_MAPPING e.dataToken
  if tok = "" ∨ e.key_name ≠ "current_apr" then
    { s1 with current_block := e.block_number }
  else if s1.last_block_data.isNone ∨ s1.token_timestamps tok = 0 then
    { s1 with token_timestamps := upd s1.token_timestamps tok e.timestamp,
              current_block := e.block_number }
  else
    let ts := e.timestamp
    let secs : ℚ := ((ts - s1.token_timestamps tok : Int) : ℚ)
    let dcol := (e.dataSupply : ℚ) * secs / SECONDS_IN_YEAR * percents_decimals_shift
    let ddebt := (e.dataBorrow : ℚ) * secs / SECONDS_IN_YEAR * percents_decimals_shift
    { s1 with current_timestamp := ts,
              cum_collateral := upd s1.cum_collateral tok (s1.cum_collateral tok + dcol),
              cum_debt := upd s1.cum_debt tok (s1.cum_debt tok + ddebt),
              token_timestamps := upd s1.token_timestamps tok ts,
              current_block := e.block_number }

/-- One iteration of the fold: the state transition together with the
appended emission (the Python mutates blocks_data in place). -/
def processEvent (p : FoldState × List InterestRate) (e : Event) :
    FoldState × List InterestRate :=
  (stepState p.1 e, p.2 ++ emits p.1 e)

/-- HashstackV0InterestRate.calculate_interest_rates (lines 68 to 112),
written as a pure function of the event list and of self.last_block_data.
It returns the list of emitted snapshots together with the final value of
self.last_block_data (the last entry passed to _add_block_data).  An empty
event list returns immediately (lines 73 and 74); otherwise the state is
built from the first event and the seed, every event is folded, and one
final snapshot is always emitted after the loop (line 111). -/
def calculate_interest_rates (events : List Event) (last : Option InterestRate) :
    List InterestRate × Option InterestRate :=
  match events with
  | [] => ([], last)
  | e0 :: _ =>
    let s0 := initState e0.block_number last
    let r := List.foldl processEvent (s0, []) events
    let snap := build_interest_rate_model r.1 HASHSTACK_ID
    (r.2 ++ [snap], some snap)

/-- Number of block transitions while scanning an event list starting from a
given current block: one per event whose block number differs from the block
of the event before it (or from the start block for the first event). -/
def countFrom (b : Int) : List Event → Nat
  | [] => 0
  | e :: rest => (if b ≠ e.block_number then 1 else 0) + countFrom e.block_number rest

/-- Number of block-number transitions observed while iterating the list:
the number of adjacent pairs of events with distinct block numbers. -/
def blockTransitions : List Event → Nat
  | [] => 0
  | e :: rest => countFrom e.block_number rest

/-- Timestamp of the seed: the stored timestamp of the persisted record, or
0 when there is no persisted record. -/
def seedTs : Option InterestRate → Int
  | none => 0
  | some r => r.timestamp

/-- Collateral accumulator of the seed state for a token: the value stored in
the persisted record, or 0 when there is no persisted record. -/
def seedColl : Option InterestRate → String → ℚ
  | none, _ => 0
  | some r, t => r.collateral t

/-- Debt accumulator of the seed state for a token. -/
def seedDebt : Option InterestRate → String → ℚ
  | none, _ => 0
  | some r, t => r.debt t

/-- HashstackV0InterestRate._get_blocks_bounds (lines 114 to 131), the
pagination planner.  The Python start_block += end_block is written out as
start_block + end_block, and the second guard compares the updated start. -/
def get_blocks_bounds (start_block end_block latest_block : Int) : Int × Int :=
  if end_block + PAGINATION_SIZE < latest_block then
    if (start_block + end_block) + PAGINATION_SIZE ≤ latest_block then
      (start_block + end_block, end_block + PAGINATION_SIZE)
    else
      (start_block + end_block, latest_block)
  else
    (start_block, latest_block)

/-- A value passed as a block bound: either a Python int or a value of some
other runtime type, for which isinstance(x, int) is false. -/
inductive BlockBound where
  | int (n : Int)
  | notInt (txt : String)
deriving DecidableEq

/-- The isinstance(x, int) test on a block bound. -/
def BlockBound.isInt : BlockBound → Bool
  | .int _ => true
  | .notInt _ => false

/-- Result of DeRiskAPIConnector.get_data: either a list of events, or a dict
carrying an error message (the code tests isinstance(result, dict)). -/
inductive FetchResult where
  | ok (events : List Event)
  | err (msg : String)
deriving DecidableEq

/-- Observable outcome of _set_events: whether the invalid-bounds branch ran
(it logs and clears), the resulting self.events, and the resulting
self._events_over flag. -/
structure SetEventsOut where
  logged_invalid : Bool
  events : List Event
  events_over : Bool
deriving DecidableEq

/-- HashstackV0InterestRate._set_events (lines 38 to 57) as a function of the
fetch service.  The isinstance guard (line 43) only logs and clears the event
list and then falls through: the fetch is performed regardless.  An error
dict empties the events and sets the _events_over flag; otherwise the fetched
list is stored and the flag keeps its previous value. -/
def set_events (fetch : BlockBound → BlockBound → FetchResult)
    (start_block end_block : BlockBound) (events_over : Bool) : SetEventsOut :=
  let logged := !(start_block.isInt && end_block.isInt)
  match fetch start_block end_block with
  | .err _ => ⟨logged, [], true⟩
  | .ok evs => ⟨logged, evs, events_over⟩

/-- Modelled from the spec: the contract of DeRiskAPIConnector.get_data
(handler_tools.api_connector is absent from src).  Per spec sections 4.2 and
6, a call with malformed bounds, for example non-integer ones, returns an
error object. -/
def FetchContract (fetch : BlockBound → BlockBound → FetchResult) : Prop :=
  ∀ a b : BlockBound, (a.isInt = false ∨ b.isInt = false) → ∃ m, fetch a b = FetchResult.err m

/-- State threaded through the iterations of the while loop in run (lines 144
to 154): the current window, the local events_over flag of run, the instance
flag self._events_over, and the accumulated effects.  The fetched field is
pure instrumentation recording the window passed to each _set_events call; it
influences nothing. -/
structure RunState where
  start_block : Int
  end_block : Int
  events_over : Bool
  events_over_field : Bool
  fetched : List (Int × Int)
  written : List InterestRate
  last_block_data : Option InterestRate

/-- One iteration of the while loop in run (lines 146 to 154): set the local
flag when the window end reaches latest_block, fetch the window, advance the
window with _get_blocks_bounds, then either skip (no events) or fold and
write the batch. -/
def runIter (fetch : BlockBound → BlockBound → FetchResult) (latest_block : Int)
    (st : RunState) : RunState :=
  let st1 := if st.end_block ≥ latest_block then { st with events_over := true } else st
  let r := set_events fetch (BlockBound.int st1.start_block) (BlockBound.int st1.end_block)
      st1.events_over_field
  let st2 := { st1 with events_over_field := r.events_over,
                        fetched := st1.fetched ++ [(st1.start_block, st1.end_block)] }
  let p := get_blocks_bounds st2.start_block st2.end_block latest_block
  let st3 := { st2 with start_block := p.1, end_block := p.2 }
  if r.events = [] then st3
  else
    let c := calculate_interest_rates r.events st3.last_block_data
    { st3 with written := st3.written ++ c.1, last_block_data := c.2 }

/-- The while loop of run with fuel: while the local events_over flag is
false, perform one iteration.  The fuel only bounds the number of modelled
iterations; the termination claim shows a sufficient fuel always exists. -/
def runLoop (fetch : BlockBound → BlockBound → FetchResult) (latest_block : Int) :
    Nat → RunState → RunState
  | 0, st => st
  | Nat.succ n, st =>
    if st.events_over then st
    else runLoop fetch latest_block n (runIter fetch latest_block st)

/-- HashstackV0InterestRate.run (lines 133 to 154): latest_block is the
answer of the chain-height query; start_block is the block of the last
persisted record or 0; an early return fires when start_block equals
latest_block; otherwise the window is initialized by applying
_get_blocks_bounds to (start_block, start_block + PAGINATION_SIZE,
latest_block) and the loop runs. -/
def run (fetch : BlockBound → BlockBound → FetchResult) (latest_block : Int)
    (last : Option InterestRate) (fuel : Nat) : Option RunState :=
  let start_block : Int := match last with | some r => r.block | none => 0
  if start_block = latest_block then none
  else
    let p := get_blocks_bounds start_block (start_block + PAGINATION_SIZE) latest_block
    some (runLoop fetch latest_block fuel ⟨p.1, p.2, false, false, [], [], last⟩)

/-- Fetch service returning an empty event list for every window. -/
def fetch_ok_empty : BlockBound → BlockBound → FetchResult := fun _ _ => FetchResult.ok []

/-- Fetch service reporting an error for every window. -/
def fetch_always_err : BlockBound → BlockBound → FetchResult :=
  fun _ _ => FetchResult.err "upstream error"

/-- Fetch service honouring the spec contract: an error dict on non-integer
bounds, an empty event list otherwise. -/
def c5_fetch : BlockBound → BlockBound → FetchResult := fun a b =>
  if a.isInt && b.isInt then FetchResult.ok [] else FetchResult.err "invalid bounds"

/-- First current_apr event of the C1 failing input: token 0x1 (ETH) at block
100, timestamp 1000, borrow 100 bps, supply 50 bps. -/
def c1_event1 : Event := ⟨100, 1000, "current_apr", "0x1", 100, 50⟩

/-- Second current_apr event of the C1 failing input: same token and block,
one year later. -/
def c1_event2 : Event := ⟨100, 1000 + 31536000, "current_apr", "0x1", 100, 50⟩

/-- Seed snapshot of the C7 counterexample: persisted at block 99 with
timestamp 1000 and zero accumulators. -/
def c7_seed : InterestRate := ⟨99, 1000, HASHSTACK_ID, fun _ => 0, fun _ => 0⟩

/-- Event of the C7 counterexample: non-negative basis points but a timestamp
earlier than the stored one, so seconds_passed is negative. -/
def c7_event : Event := ⟨100, 500, "current_apr", "0x1", 100, 50⟩

/-- Seed of the C7 witness. -/
def c7w_seed : InterestRate := ⟨99, 1000, HASHSTACK_ID, fun _ => 0, fun _ => 0⟩

/-- Event of the C7 witness: non-negative basis points, timestamp after the
stored one. -/
def c7w_event : Event := ⟨100, 2000, "current_apr", "0x1", 100, 50⟩

/-- Seed snapshot of the C8 counterexample. -/
def c8_seed : InterestRate := ⟨10, 100, HASHSTACK_ID, fun _ => 0, fun _ => 0⟩

/-- First-window event of the C8 counterexample: token ETH updated at
timestamp 200. -/
def c8_e1 : Event := ⟨11, 200, "current_apr", "0x1", 100, 100⟩

/-- Second-window event of the C8 counterexample: token USDC updated at
timestamp 300; its stored timestamp is 100 in the single pass but is reseeded
to 200 after the restart. -/
def c8_e2 : Event := ⟨12, 300, "current_apr", "0x2", 100, 100⟩

/-- Seed of the C8 witness. -/
def c8w_seed : InterestRate := ⟨10, 100, HASHSTACK_ID, fun _ => 0, fun _ => 0⟩

/-- First-window event of the C8 witness (single token ETH). -/
def c8w_e1 : Event := ⟨11, 200, "current_apr", "0x1", 100, 100⟩

/-- Second-window event of the C8 witness (same single token ETH). -/
def c8w_e2 : Event := ⟨12, 300, "current_apr", "0x1", 100, 100⟩

/-- An event stream concerns a single token X when every event that passes
the token and key guard of the fold resolves to X. -/
def relevantTo (X : String) (e : Event) : Prop :=
  TOKEN_MAPPING e.dataToken ≠ "" → e.key_name = "current_apr" → TOKEN_MAPPING e.dataToken = X

/-- Invariant of a single-token fold: a persisted record is present, the
stored timestamp of token X is initialized, and it coincides with
current_timestamp (the timestamp a snapshot would store). -/
def alignedOn (X : String) (s : FoldState) : Prop :=
  s.last_block_data.isSome = true ∧ s.token_timestamps X ≠ 0 ∧
    s.token_timestamps X = s.current_timestamp

/-- Correspondence between the mid-run fold state and the state rebuilt from
the last emitted snapshot: both hold a persisted record, and they agree on
current_timestamp, on the stored timestamp of the single token X (which is
initialized) and on both cumulative maps everywhere. -/
def agreeOn (X : String) (s s' : FoldState) : Prop :=
  s.last_block_data.isSome = true ∧ s'.last_block_data.isSome = true ∧
  s.current_timestamp = s'.current_timestamp ∧
  s.token_timestamps X = s'.token_timestamps X ∧
  s.token_timestamps X ≠ 0 ∧
  (∀ t, s.cum_collateral t = s'.cum_collateral t) ∧
  (∀ t, s.cum_debt t = s'.cum_debt t)

/- ---------------------------------------------------------------------- -/
/- Theorems                                                               -/
/- ---------------------------------------------------------------------- -/

/-- C6: for every input triple, the pagination planner returns a window whose
end does not exceed latest_block. -/
theorem claim_C6 (start_block end_block latest_block : Int) :
    (get_blocks_bounds start_block end_block latest_block).2 ≤ latest_block := by
  simp only [get_blocks_bounds, PAGINATION_SIZE]
  split_ifs <;> simp only [] <;> omega

/-- C9: calling the fold with an empty event list returns the empty list and
leaves the stored last-block record unchanged; no snapshot is built. -/
theorem claim_C9 (last : Option InterestRate) :
    calculate_interest_rates [] last = ([], last) := rfl

/-- C1, behaviour of the code at the failing input: with no persisted state
and two current_apr events for the same token in the same block, the first
at timestamp 1000 and the second exactly one year later with borrow 100 bps
and supply 50 bps, the code takes the baseline branch for both events
(line 91 tests not self.last_block_data OR a zero stored timestamp, and
self.last_block_data stays None while no block transition occurs), so the
single emitted snapshot carries zero accumulators, where the claim and the
worked example of the spec (section 8) require debt 0.01 and collateral
0.005. -/
theorem claim_C1_code :
    (calculate_interest_rates [c1_event1, c1_event2] none).1.length = 1 ∧
    ((calculate_interest_rates [c1_event1, c1_event2] none).2.getD zeroSnap).debt "ETH" = 0 ∧
    ((calculate_interest_rates [c1_event1, c1_event2] none).2.getD zeroSnap).collateral "ETH" = 0 := by
  refine ⟨?_, ?_, ?_⟩ <;>
    simp [calculate_interest_rates, processEvent, stepState, stepStage1, emits, initState,
      build_interest_rate_model, upd, TOKEN_MAPPING, c1_event1, c1_event2]

/-- C3, behaviour of the code at the failing input: on a fresh run with
latest_block 5000 the first window actually fetched is (1000, 2000), because
run applies the planner once before the first fetch; the clamping clause of
the claim does hold, as the second conjunct shows on a window end 4500 with
fewer than 1000 blocks remaining. -/
theorem claim_C3_code :
    (run fetch_ok_empty 5000 none 1).map RunState.fetched = some [((1000 : Int), (2000 : Int))] ∧
    get_blocks_bounds 0 4500 5000 = (0, 5000) := by
  constructor
  · rfl
  · rfl

/-- C2, behaviour of the code at the failing input: with every fetch
reporting an error and latest_block 5000, the loop keeps fetching further
windows after the first error, because the local events_over flag of run is
set only by the window reaching latest_block and the _events_over attribute
is never read; the second and third conjuncts show that _set_events does clear
the working event set and does set the (dead) flag. -/
theorem claim_C2_code :
    (run fetch_always_err 5000 none 4).map RunState.fetched
      = some [((1000 : Int), (2000 : Int)), (3000, 3000), (6000, 5000)] ∧
    (set_events fetch_always_err (BlockBound.int 1000) (BlockBound.int 2000) false).events = [] ∧
    (set_events fetch_always_err (BlockBound.int 1000) (BlockBound.int 2000) false).events_over
      = true := by
  refine ⟨?_, rfl, rfl⟩
  rfl

/-- C7 counterexample: a fold call whose single event carries non-negative
basis points (borrow 100, supply 50) but a timestamp earlier than the stored
one makes the cumulative collateral accumulator strictly smaller than its
value in the seed state, refuting the claim as stated. -/
theorem claim_C7_counterexample :
    (0 ≤ c7_event.dataBorrow ∧ 0 ≤ c7_event.dataSupply) ∧
    ((calculate_interest_rates [c7_event] (some c7_seed)).2.getD zeroSnap).collateral "ETH"
      < c7_seed.collateral "ETH" := by
  refine ⟨⟨by decide, by decide⟩, ?_⟩
  simp [calculate_interest_rates, processEvent, stepState, stepStage1, emits, initState,
    build_interest_rate_model, upd, TOKEN_MAPPING, c7_event, c7_seed,
    SECONDS_IN_YEAR, percents_decimals_shift]
  norm_num

/-- C8 counterexample: folding the first window (one ETH update at timestamp
200) and then the second window (one USDC update at timestamp 300) seeded
with the resulting last snapshot gives USDC a debt accrual over 100 seconds,
while the single pass over both windows accrues over 200 seconds, because
reseeding collapses every per-token timestamp to the single stored snapshot
timestamp; the final cumulative accumulators differ, refuting the claim as
stated. -/
theorem claim_C8_counterexample :
    ((calculate_interest_rates [c8_e2]
        ((calculate_interest_rates [c8_e1] (some c8_seed)).2)).2.getD zeroSnap).debt "USDC"
      ≠ ((calculate_interest_rates [c8_e1, c8_e2] (some c8_seed)).2.getD zeroSnap).debt "USDC" := by
  simp [calculate_interest_rates, processEvent, stepState, stepStage1, emits, initState,
    build_interest_rate_model, upd, TOKEN_MAPPING, c8_e1, c8_e2, c8_seed,
    SECONDS_IN_YEAR, percents_decimals_shift]
  norm_num

/-- The end of the window produced by one loop iteration is the end computed
by the planner from the current window. -/
theorem runIter_end (fetch : BlockBound → BlockBound → FetchResult) (latest_block : Int)
    (st : RunState) :
    (runIter fetch latest_block st).end_block
      = (get_blocks_bounds st.start_block st.end_block latest_block).2 := by
  simp only [runIter, set_events]
  split <;> (rename_i h1) <;>
    cases fetch (BlockBound.int st.start_block) (BlockBound.int st.end_block) <;>
    simp <;> split <;> simp

/-- One loop iteration sets the local events_over flag exactly when the
current window end has reached latest_block (or the flag was already set);
neither the fetch outcome nor the _events_over attribute influences it. -/
theorem runIter_over (fetch : BlockBound → BlockBound → FetchResult) (latest_block : Int)
    (st : RunState) :
    (runIter fetch latest_block st).events_over
      = (st.events_over || decide (st.end_block ≥ latest_block)) := by
  simp only [runIter, set_events]
  split <;> (rename_i h1) <;>
    cases fetch (BlockBound.int st.start_block) (BlockBound.int st.end_block) <;>
    simp [h1] <;> split <;> simp [h1]

/-- While the window end is below latest_block the planner strictly
increases it. -/
theorem get_blocks_bounds_progress (start_block end_block latest_block : Int)
    (h : end_block < latest_block) :
    end_block < (get_blocks_bounds start_block end_block latest_block).2 := by
  simp only [get_blocks_bounds, PAGINATION_SIZE]
  split_ifs <;> simp only [] <;> omega

/-- With fuel at least one more than the gap between latest_block and the
window end, the loop reaches a state whose exit flag is set. -/
theorem runLoop_reaches (fetch : BlockBound → BlockBound → FetchResult) (latest_block : Int) :
    ∀ (k : Nat) (st : RunState), latest_block ≤ st.end_block + k →
      ∃ n : Nat, (runLoop fetch latest_block n st).events_over = true := by
  intro k
  induction k with
  | zero =>
    intro st h
    refine ⟨1, ?_⟩
    by_cases hov : st.events_over = true
    · simp [runLoop, hov]
    · simp only [runLoop, Bool.not_eq_true] at hov ⊢
      rw [hov]
      simp only [Bool.false_eq_true, if_false]
      rw [runIter_over]
      simp [hov]
      omega
  | succ k ih =>
    intro st h
    by_cases hov : st.events_over = true
    · exact ⟨0, hov⟩
    · by_cases hL : latest_block ≤ st.end_block
      · refine ⟨1, ?_⟩
        simp only [runLoop, Bool.not_eq_true] at hov ⊢
        rw [hov]
        simp only [Bool.false_eq_true, if_false]
        rw [runIter_over]
        simp [hov]
        omega
      · push_neg at hL
        have hprog := get_blocks_bounds_progress st.start_block st.end_block latest_block hL
        obtain ⟨n, hn⟩ := ih (runIter fetch latest_block st) (by rw [runIter_end]; omega)
        refine ⟨n + 1, ?_⟩
        simp only [runLoop, Bool.not_eq_true] at hov ⊢
        rw [hov]
        simpa using hn

/-- C10: for every finite latest_block and every fetch service the pagination
loop terminates: each iteration either observes a window end at or beyond
latest_block, setting the exit flag, or the planner strictly increases the
window end, so after finitely many iterations the exit flag is set. -/
theorem claim_C10 (fetch : BlockBound → BlockBound → FetchResult) (latest_block : Int)
    (st : RunState) :
    ∃ n : Nat, (runLoop fetch latest_block n st).events_over = true := by
  exact runLoop_reaches fetch latest_block (latest_block - st.end_block).toNat st (by omega)

/-- C5: when _set_events is invoked with a non-integer start or end bound and
the fetch service honours the spec contract (an error object on malformed
bounds), the condition is logged, the working event set is left empty, and
the loop of run proceeds: its exit flag after any iteration depends only on
the window end having reached latest_block, never on the fetch outcome. -/
theorem claim_C5 (fetch : BlockBound → BlockBound → FetchResult) (hc : FetchContract fetch)
    (a b : BlockBound) (h : a.isInt = false ∨ b.isInt = false) (prev : Bool) :
    (set_events fetch a b prev).logged_invalid = true ∧
    (set_events fetch a b prev).events = [] ∧
    ∀ (latest_block : Int) (st : RunState),
      (runIter fetch latest_block st).events_over
        = (st.events_over || decide (st.end_block ≥ latest_block)) := by
  obtain ⟨m, hm⟩ := hc a b h
  refine ⟨?_, ?_, fun latest_block st => runIter_over fetch latest_block st⟩
  · simp only [set_events, hm]
    rcases h with h | h <;> simp [h]
  · simp only [set_events, hm]

/-- C5 witness: a concrete contract-honouring fetch service and a concrete
non-integer start bound on which the theorem applies. -/
theorem claim_C5_witness :
    (set_events c5_fetch (BlockBound.notInt "abc") (BlockBound.int 7) false).logged_invalid = true ∧
    (set_events c5_fetch (BlockBound.notInt "abc") (BlockBound.int 7) false).events = [] := by
  have h := claim_C5 c5_fetch
    (fun a b hab => ⟨"invalid bounds", by
      rcases hab with hab | hab <;> simp [c5_fetch, hab]⟩)
    (BlockBound.notInt "abc") (BlockBound.int 7) (Or.inl rfl) false
  exact ⟨h.1, h.2.1⟩

/-- Every branch of the loop body leaves current_block equal to the block
number of the event just processed. -/
theorem stepState_block (s : FoldState) (e : Event) :
    (stepState s e).current_block = e.block_number := by
  simp only [stepState, stepStage1]
  repeat' split
  all_goals rfl

/-- Exactly one snapshot is emitted for an event whose block number differs
from current_block, none otherwise. -/
theorem emits_length (s : FoldState) (e : Event) :
    (emits s e).length = if s.current_block ≠ e.block_number then 1 else 0 := by
  simp only [emits]
  split <;> rfl

/-- Length of the snapshot list accumulated by the fold: the count of block
transitions measured from the current block of the starting state. -/
theorem fold_len (evs : List Event) :
    ∀ (s : FoldState) (acc : List InterestRate),
      (List.foldl processEvent (s, acc) evs).2.length
        = acc.length + countFrom s.current_block evs := by
  induction evs with
  | nil => intro s acc; simp [countFrom]
  | cons e rest ih =>
    intro s acc
    have h1 : List.foldl processEvent (s, acc) (e :: rest)
        = List.foldl processEvent (stepState s e, acc ++ emits s e) rest := rfl
    rw [h1, ih, countFrom]
    rw [List.length_append, emits_length, stepState_block]
    omega

/-- The initial fold state starts at the given block. -/
theorem initState_block (b : Int) (last : Option InterestRate) :
    (initState b last).current_block = b := by
  cases last <;> rfl

/-- C4: the fold emits no snapshot for an empty event list, and for a
non-empty list it emits exactly the number of block-number transitions
observed while iterating the list plus one final emission after the loop
(hence always at least one). -/
theorem claim_C4 (events : List Event) (last : Option InterestRate) :
    (calculate_interest_rates events last).1.length
      = if events = [] then 0 else blockTransitions events + 1 := by
  cases events with
  | nil => rfl
  | cons e0 rest =>
    simp only [calculate_interest_rates, List.cons_ne_self, if_neg, reduceCtorEq]
    rw [List.length_append, fold_len, initState_block]
    simp [countFrom, blockTransitions]

/-- The state component of the fold ignores the accumulated snapshot list. -/
theorem fold_fst (evs : List Event) :
    ∀ (s : FoldState) (acc : List InterestRate),
      (List.foldl processEvent (s, acc) evs).1 = List.foldl stepState s evs := by
  induction evs with
  | nil => intro s acc; rfl
  | cons e rest ih =>
    intro s acc
    exact ih (stepState s e) (acc ++ emits s e)

/-- A pointwise map update either leaves a point unchanged or stores the new
value there. -/
theorem upd_eq_or {α : Type} (f : String → α) (k : String) (v : α) (t : String) :
    upd f k v t = f t ∨ upd f k v t = v := by
  simp only [upd]
  split <;> simp

/-- Each stored token timestamp after one step is either the old one or the
timestamp of the event just processed. -/
theorem stepState_tt (s : FoldState) (e : Event) (t : String) :
    (stepState s e).token_timestamps t = s.token_timestamps t ∨
      (stepState s e).token_timestamps t = e.timestamp := by
  simp only [stepState, stepStage1]
  repeat' split
  all_goals first
    | exact Or.inl rfl
    | exact upd_eq_or _ _ _ _

/-- One step never decreases the cumulative collateral accumulator of any
token, provided the event carries a non-negative supply rate and a timestamp
not below any stored token timestamp. -/
theorem stepState_coll_mono (s : FoldState) (e : Event)
    (hsup : 0 ≤ e.dataSupply) (htt : ∀ t, s.token_timestamps t ≤ e.timestamp) (t : String) :
    s.cum_collateral t ≤ (stepState s e).cum_collateral t := by
  have hsecs : (0 : ℚ) ≤ ((e.timestamp - s.token_timestamps (TOKEN_MAPPING e.dataToken) : Int) : ℚ) := by
    have := htt (TOKEN_MAPPING e.dataToken)
    exact_mod_cast Int.sub_nonneg.mpr this
  have hdelta : (0 : ℚ) ≤ (e.dataSupply : ℚ)
      * ((e.timestamp - s.token_timestamps (TOKEN_MAPPING e.dataToken) : Int) : ℚ)
      / SECONDS_IN_YEAR * percents_decimals_shift := by
    apply mul_nonneg
    · apply div_nonneg
      · apply mul_nonneg _ hsecs
        exact_mod_cast hsup
      · norm_num [SECONDS_IN_YEAR]
    · norm_num [percents_decimals_shift]
  simp only [stepState, stepStage1]
  repeat' split
  all_goals try exact le_rfl
  all_goals simp only [upd]
  all_goals split
  all_goals try exact le_rfl
  all_goals rename_i ht
  all_goals rw [ht]
  all_goals exact le_add_of_nonneg_right hdelta

/-- One step never decreases the cumulative debt accumulator of any token,
provided the event carries a non-negative borrow rate and a timestamp not
below any stored token timestamp. -/
theorem stepState_debt_mono (s : FoldState) (e : Event)
    (hbor : 0 ≤ e.dataBorrow) (htt : ∀ t, s.token_timestamps t ≤ e.timestamp) (t : String) :
    s.cum_debt t ≤ (stepState s e).cum_debt t := by
  have hsecs : (0 : ℚ) ≤ ((e.timestamp - s.token_timestamps (TOKEN_MAPPING e.dataToken) : Int) : ℚ) := by
    have := htt (TOKEN_MAPPING e.dataToken)
    exact_mod_cast Int.sub_nonneg.mpr this
  have hdelta : (0 : ℚ) ≤ (e.dataBorrow : ℚ)
      * ((e.timestamp - s.token_timestamps (TOKEN_MAPPING e.dataToken) : Int) : ℚ)
      / SECONDS_IN_YEAR * percents_decimals_shift := by
    apply mul_nonneg
    · apply div_nonneg
      · apply mul_nonneg _ hsecs
        exact_mod_cast hbor
      · norm_num [SECONDS_IN_YEAR]
    · norm_num [percents_decimals_shift]
  simp only [stepState, stepStage1]
  repeat' split
  all_goals try exact le_rfl
  all_goals simp only [upd]
  all_goals split
  all_goals try exact le_rfl
  all_goals rename_i ht
  all_goals rw [ht]
  all_goals exact le_add_of_nonneg_right hdelta

/-- Folding a timestamp-sorted event list with non-negative rates never
decreases any cumulative accumulator of the starting state. -/
theorem fold_mono (evs : List Event) :
    ∀ s : FoldState,
      (∀ e ∈ evs, 0 ≤ e.dataBorrow ∧ 0 ≤ e.dataSupply) →
      evs.Pairwise (fun a b => a.timestamp ≤ b.timestamp) →
      (∀ e ∈ evs, ∀ t, s.token_timestamps t ≤ e.timestamp) →
      ∀ t, s.cum_collateral t ≤ (List.foldl stepState s evs).cum_collateral t ∧
        s.cum_debt t ≤ (List.foldl stepState s evs).cum_debt t := by
  induction evs with
  | nil => intro s _ _ _ t; exact ⟨le_refl _, le_refl _⟩
  | cons e rest ih =>
    intro s hbps hsort htt t
    rw [List.pairwise_cons] at hsort
    have hbe := hbps e (List.mem_cons_self e rest)
    have htte : ∀ u, s.token_timestamps u ≤ e.timestamp :=
      fun u => htt e (List.mem_cons_self e rest) u
    have hstep_c := stepState_coll_mono s e hbe.2 htte
    have hstep_d := stepState_debt_mono s e hbe.1 htte
    have htt' : ∀ e' ∈ rest, ∀ u, (stepState s e).token_timestamps u ≤ e'.timestamp := by
      intro e' he' u
      rcases stepState_tt s e u with h | h
      · rw [h]; exact htt e' (List.mem_cons_of_mem e he') u
      · rw [h]; exact hsort.1 e' he'
    have hrest := ih (stepState s e)
      (fun e' he' => hbps e' (List.mem_cons_of_mem e he')) hsort.2 htt'
    have hfold : List.foldl stepState s (e :: rest)
        = List.foldl stepState (stepState s e) rest := rfl
    rw [hfold]
    exact ⟨le_trans (hstep_c t) (hrest t).1, le_trans (hstep_d t) (hrest t).2⟩

/-- The initial fold state carries the seed accumulators and timestamps. -/
theorem initState_fields (b : Int) (last : Option InterestRate) :
    (∀ t, (initState b last).cum_collateral t = seedColl last t) ∧
    (∀ t, (initState b last).cum_debt t = seedDebt last t) ∧
    (∀ t, (initState b last).token_timestamps t = seedTs last) := by
  cases last <;> exact ⟨fun _ => rfl, fun _ => rfl, fun _ => rfl⟩

/-- C7 (amended): for every fold call whose events all carry non-negative
basis-point values, whose events are ordered by non-decreasing timestamp,
and whose event timestamps are not below the stored timestamp of the seed,
every cumulative collateral and cumulative debt accumulator in the resulting
state is at least its value in the seed state; accumulators are never
reset. -/
theorem claim_C7_amended (evs : List Event) (last : Option InterestRate)
    (hbps : ∀ e ∈ evs, 0 ≤ e.dataBorrow ∧ 0 ≤ e.dataSupply)
    (hts : ∀ e ∈ evs, seedTs last ≤ e.timestamp)
    (hsorted : evs.Pairwise (fun a b => a.timestamp ≤ b.timestamp)) :
    ∀ tok, seedColl last tok
        ≤ ((calculate_interest_rates evs last).2.getD zeroSnap).collateral tok ∧
      seedDebt last tok
        ≤ ((calculate_interest_rates evs last).2.getD zeroSnap).debt tok := by
  cases evs with
  | nil =>
    intro tok
    cases last with
    | none => exact ⟨le_refl _, le_refl _⟩
    | some r => exact ⟨le_refl _, le_refl _⟩
  | cons e0 rest =>
    intro tok
    obtain ⟨hic, hid, hit⟩ := initState_fields e0.block_number last
    have htt0 : ∀ e ∈ e0 :: rest, ∀ t,
        (initState e0.block_number last).token_timestamps t ≤ e.timestamp := by
      intro e he t
      rw [hit]
      exact hts e he
    have hm := fold_mono (e0 :: rest) (initState e0.block_number last) hbps hsorted
      (fun e he => htt0 e he) tok
    have hcalc : (calculate_interest_rates (e0 :: rest) last).2
        = some (build_interest_rate_model
            (List.foldl processEvent (initState e0.block_number last, []) (e0 :: rest)).1
            HASHSTACK_ID) := rfl
    rw [hcalc]
    simp only [Option.getD_some, build_interest_rate_model]
    rw [fold_fst] at *
    exact ⟨le_trans (le_of_eq (hic tok).symm) hm.1,
      le_trans (le_of_eq (hid tok).symm) hm.2⟩

/-- C7 witness: a concrete fold call satisfying the hypotheses, one ETH event
with non-negative rates at a timestamp after the stored one. -/
theorem claim_C7_witness :
    seedColl (some c7w_seed) "ETH"
      ≤ ((calculate_interest_rates [c7w_event] (some c7w_seed)).2.getD zeroSnap).collateral "ETH" :=
  (claim_C7_amended [c7w_event] (some c7w_seed)
    (by intro e he; simp only [List.mem_singleton] at he; subst he; exact ⟨by decide, by decide⟩)
    (by intro e he; simp only [List.mem_singleton] at he; subst he; decide)
    (List.pairwise_singleton _ _) "ETH").1

/-- The token timestamp stored by an update is read back at its own key. -/
theorem upd_self {α : Type} (f : String → α) (k : String) (v : α) :
    upd f k v k = v := by
  simp [upd]

/-- A map update leaves every other key unchanged. -/
theorem upd_other {α : Type} (f : String → α) (k : String) (v : α) (t : String)
    (h : t ≠ k) : upd f k v t = f t := by
  simp [upd, h]

/-- The emission stage changes no field except last_block_data. -/
theorem stepStage1_proj (s : FoldState) (e : Event) :
    (stepStage1 s e).current_timestamp = s.current_timestamp ∧
    (stepStage1 s e).token_timestamps = s.token_timestamps ∧
    (stepStage1 s e).cum_collateral = s.cum_collateral ∧
    (stepStage1 s e).cum_debt = s.cum_debt := by
  simp only [stepStage1]
  split <;> exact ⟨rfl, rfl, rfl, rfl⟩

/-- The emission stage keeps a present last_block_data present. -/
theorem stepStage1_some (s : FoldState) (e : Event)
    (h : s.last_block_data.isSome = true) :
    (stepStage1 s e).last_block_data.isSome = true := by
  simp only [stepStage1]
  split <;> simp [h]

/-- Reduction of the loop body in the skip branch (unknown token or wrong
key name). -/
theorem stepState_skip (s : FoldState) (e : Event)
    (hg : TOKEN_MAPPING e.dataToken = "" ∨ e.key_name ≠ "current_apr") :
    stepState s e = { stepStage1 s e with current_block := e.block_number } := by
  simp only [stepState, stepStage1]
  rw [if_pos hg]

/-- Reduction of the loop body in the accrual branch. -/
theorem stepState_accrual (s : FoldState) (e : Event)
    (hg : ¬(TOKEN_MAPPING e.dataToken = "" ∨ e.key_name ≠ "current_apr"))
    (hb : ¬((stepStage1 s e).last_block_data.isNone = true ∨
        (stepStage1 s e).token_timestamps (TOKEN_MAPPING e.dataToken) = 0)) :
    stepState s e = { stepStage1 s e with
      current_timestamp := e.timestamp,
      cum_collateral := upd (stepStage1 s e).cum_collateral (TOKEN_MAPPING e.dataToken)
        ((stepStage1 s e).cum_collateral (TOKEN_MAPPING e.dataToken) +
          (e.dataSupply : ℚ)
            * ((e.timestamp - (stepStage1 s e).token_timestamps (TOKEN_MAPPING e.dataToken) : Int) : ℚ)
            / SECONDS_IN_YEAR * percents_decimals_shift),
      cum_debt := upd (stepStage1 s e).cum_debt (TOKEN_MAPPING e.dataToken)
        ((stepStage1 s e).cum_debt (TOKEN_MAPPING e.dataToken) +
          (e.dataBorrow : ℚ)
            * ((e.timestamp - (stepStage1 s e).token_timestamps (TOKEN_MAPPING e.dataToken) : Int) : ℚ)
            / SECONDS_IN_YEAR * percents_decimals_shift),
      token_timestamps := upd (stepStage1 s e).token_timestamps (TOKEN_MAPPING e.dataToken)
        e.timestamp,
      current_block := e.block_number } := by
  simp only [stepState]
  rw [if_neg hg, if_neg hb]

/-- One step preserves the single-token alignment invariant. -/
theorem stepState_aligned (X : String) (s : FoldState) (e : Event)
    (ha : alignedOn X s) (hts : e.timestamp ≠ 0) (hrel : relevantTo X e) :
    alignedOn X (stepState s e) := by
  obtain ⟨h1, h2, h3⟩ := ha
  obtain ⟨p1, p2, p3, p4⟩ := stepStage1_proj s e
  have hsome := stepStage1_some s e h1
  by_cases hg : TOKEN_MAPPING e.dataToken = "" ∨ e.key_name ≠ "current_apr"
  · rw [stepState_skip s e hg]
    refine ⟨hsome, ?_, ?_⟩
    · show (stepStage1 s e).token_timestamps X ≠ 0
      rw [p2]; exact h2
    · show (stepStage1 s e).token_timestamps X = (stepStage1 s e).current_timestamp
      rw [p1, p2]; exact h3
  · have hgg := hg
    push_neg at hgg
    have htokX : TOKEN_MAPPING e.dataToken = X := hrel hgg.1 hgg.2
    have hb : ¬((stepStage1 s e).last_block_data.isNone = true ∨
        (stepStage1 s e).token_timestamps (TOKEN_MAPPING e.dataToken) = 0) := by
      push_neg
      constructor
      · intro hno
        rw [Option.isNone_iff_eq_none] at hno
        rw [hno] at hsome
        simp at hsome
      · rw [p2, htokX]; exact h2
    rw [stepState_accrual s e hg hb]
    refine ⟨hsome, ?_, ?_⟩
    · show upd (stepStage1 s e).token_timestamps (TOKEN_MAPPING e.dataToken) e.timestamp X ≠ 0
      rw [htokX, upd_self]
      exact hts
    · show upd (stepStage1 s e).token_timestamps (TOKEN_MAPPING e.dataToken) e.timestamp X
        = e.timestamp
      rw [htokX, upd_self]

/-- Folding a nonzero-timestamp, single-token event list preserves the
alignment invariant. -/
theorem fold_aligned (X : String) (evs : List Event) :
    ∀ s : FoldState, alignedOn X s →
      (∀ e ∈ evs, e.timestamp ≠ 0) → (∀ e ∈ evs, relevantTo X e) →
      alignedOn X (List.foldl stepState s evs) := by
  induction evs with
  | nil => intro s ha _ _; exact ha
  | cons e rest ih =>
    intro s ha hts hrel
    exact ih (stepState s e)
      (stepState_aligned X s e ha (hts e (List.mem_cons_self e rest))
        (hrel e (List.mem_cons_self e rest)))
      (fun e' he' => hts e' (List.mem_cons_of_mem e he'))
      (fun e' he' => hrel e' (List.mem_cons_of_mem e he'))

/-- One step preserves the correspondence between a mid-run state and the
state rebuilt from a snapshot, for single-token event streams. -/
theorem stepState_agree (X : String) (s s' : FoldState) (e : Event)
    (hag : agreeOn X s s') (hts : e.timestamp ≠ 0) (hrel : relevantTo X e) :
    agreeOn X (stepState s e) (stepState s' e) := by
  obtain ⟨h1, h1', hct, htt, hnz, hcc, hcd⟩ := hag
  obtain ⟨p1, p2, p3, p4⟩ := stepStage1_proj s e
  obtain ⟨q1, q2, q3, q4⟩ := stepStage1_proj s' e
  have hsome := stepStage1_some s e h1
  have hsome' := stepStage1_some s' e h1'
  by_cases hg : TOKEN_MAPPING e.dataToken = "" ∨ e.key_name ≠ "current_apr"
  · rw [stepState_skip s e hg, stepState_skip s' e hg]
    refine ⟨hsome, hsome', ?_, ?_, ?_, ?_, ?_⟩
    · show (stepStage1 s e).current_timestamp = (stepStage1 s' e).current_timestamp
      rw [p1, q1]; exact hct
    · show (stepStage1 s e).token_timestamps X = (stepStage1 s' e).token_timestamps X
      rw [p2, q2]; exact htt
    · show (stepStage1 s e).token_timestamps X ≠ 0
      rw [p2]; exact hnz
    · intro t
      show (stepStage1 s e).cum_collateral t = (stepStage1 s' e).cum_collateral t
      rw [p3, q3]; exact hcc t
    · intro t
      show (stepStage1 s e).cum_debt t = (stepStage1 s' e).cum_debt t
      rw [p4, q4]; exact hcd t
  · have hgg := hg
    push_neg at hgg
    have htokX : TOKEN_MAPPING e.dataToken = X := hrel hgg.1 hgg.2
    have hnz' : s'.token_timestamps X ≠ 0 := by rw [← htt]; exact hnz
    have hb : ¬((stepStage1 s e).last_block_data.isNone = true ∨
        (stepStage1 s e).token_timestamps (TOKEN_MAPPING e.dataToken) = 0) := by
      push_neg
      constructor
      · intro hno
        rw [Option.isNone_iff_eq_none] at hno
        rw [hno] at hsome
        simp at hsome
      · rw [p2, htokX]; exact hnz
    have hb' : ¬((stepStage1 s' e).last_block_data.isNone = true ∨
        (stepStage1 s' e).token_timestamps (TOKEN_MAPPING e.dataToken) = 0) := by
      push_neg
      constructor
      · intro hno
        rw [Option.isNone_iff_eq_none] at hno
        rw [hno] at hsome'
        simp at hsome'
      · rw [q2, htokX]; exact hnz'
    have httX : (stepStage1 s e).token_timestamps (TOKEN_MAPPING e.dataToken)
        = (stepStage1 s' e).token_timestamps (TOKEN_MAPPING e.dataToken) := by
      rw [p2, q2, htokX]; exact htt
    have hccX : (stepStage1 s e).cum_collateral (TOKEN_MAPPING e.dataToken)
        = (stepStage1 s' e).cum_collateral (TOKEN_MAPPING e.dataToken) := by
      rw [p3, q3]; exact hcc _
    have hcdX : (stepStage1 s e).cum_debt (TOKEN_MAPPING e.dataToken)
        = (stepStage1 s' e).cum_debt (TOKEN_MAPPING e.dataToken) := by
      rw [p4, q4]; exact hcd _
    rw [stepState_accrual s e hg hb, stepState_accrual s' e hg hb']
    refine ⟨hsome, hsome', rfl, ?_, ?_, ?_, ?_⟩
    · show upd (stepStage1 s e).token_timestamps (TOKEN_MAPPING e.dataToken) e.timestamp X
        = upd (stepStage1 s' e).token_timestamps (TOKEN_MAPPING e.dataToken) e.timestamp X
      rw [htokX, upd_self, upd_self]
    · show upd (stepStage1 s e).token_timestamps (TOKEN_MAPPING e.dataToken) e.timestamp X ≠ 0
      rw [htokX, upd_self]
      exact hts
    · intro t
      by_cases ht : t = TOKEN_MAPPING e.dataToken
      · show upd (stepStage1 s e).cum_collateral (TOKEN_MAPPING e.dataToken) _ t
          = upd (stepStage1 s' e).cum_collateral (TOKEN_MAPPING e.dataToken) _ t
        rw [ht, upd_self, upd_self, hccX, httX]
      · show upd (stepStage1 s e).cum_collateral (TOKEN_MAPPING e.dataToken) _ t
          = upd (stepStage1 s' e).cum_collateral (TOKEN_MAPPING e.dataToken) _ t
        rw [upd_other _ _ _ _ ht, upd_other _ _ _ _ ht, p3, q3]
        exact hcc t
    · intro t
      by_cases ht : t = TOKEN_MAPPING e.dataToken
      · show upd (stepStage1 s e).cum_debt (TOKEN_MAPPING e.dataToken) _ t
          = upd (stepStage1 s' e).cum_debt (TOKEN_MAPPING e.dataToken) _ t
        rw [ht, upd_self, upd_self, hcdX, httX]
      · show upd (stepStage1 s e).cum_debt (TOKEN_MAPPING e.dataToken) _ t
          = upd (stepStage1 s' e).cum_debt (TOKEN_MAPPING e.dataToken) _ t
        rw [upd_other _ _ _ _ ht, upd_other _ _ _ _ ht, p4, q4]
        exact hcd t

/-- Folding the same nonzero-timestamp, single-token event list on two
corresponding states preserves the correspondence. -/
theorem fold_agree (X : String) (evs : List Event) :
    ∀ s s' : FoldState, agreeOn X s s' →
      (∀ e ∈ evs, e.timestamp ≠ 0) → (∀ e ∈ evs, relevantTo X e) →
      agreeOn X (List.foldl stepState s evs) (List.foldl stepState s' evs) := by
  induction evs with
  | nil => intro s s' hag _ _; exact hag
  | cons e rest ih =>
    intro s s' hag hts hrel
    exact ih (stepState s e) (stepState s' e)
      (stepState_agree X s s' e hag (hts e (List.mem_cons_self e rest))
        (hrel e (List.mem_cons_self e rest)))
      (fun e' he' => hts e' (List.mem_cons_of_mem e he'))
      (fun e' he' => hrel e' (List.mem_cons_of_mem e he'))

/-- The second component of a fold call on a non-empty list is the final
snapshot of the folded state. -/
theorem calc_snd_cons (e0 : Event) (rest : List Event) (last : Option InterestRate) :
    (calculate_interest_rates (e0 :: rest) last).2
      = some (build_interest_rate_model
          (List.foldl stepState (initState e0.block_number last) (e0 :: rest)) HASHSTACK_ID) := by
  show some (build_interest_rate_model
      (List.foldl processEvent (initState e0.block_number last, []) (e0 :: rest)).1 HASHSTACK_ID)
    = _
  rw [fold_fst]

/-- C8 (amended): folding the events of the first window from a state seeded
with a persisted snapshot, then folding the events of the second window
seeded with the resulting last snapshot, yields the same final cumulative
accumulators as folding all events in a single pass from the same seed,
provided the seed snapshot and all events carry nonzero timestamps and every
event that passes the token and key guard resolves to one single token X.
Without the single-token restriction the property fails, because a snapshot
stores only one timestamp and reseeding collapses distinct per-token
timestamps. -/
theorem claim_C8_amended (X : String) (evs1 evs2 : List Event) (r0 : InterestRate)
    (h0 : r0.timestamp ≠ 0)
    (hts : ∀ e ∈ evs1 ++ evs2, e.timestamp ≠ 0)
    (hrel : ∀ e ∈ evs1 ++ evs2, relevantTo X e) :
    ∀ tok,
      (((calculate_interest_rates evs2
          ((calculate_interest_rates evs1 (some r0)).2)).2).getD zeroSnap).collateral tok
        = (((calculate_interest_rates (evs1 ++ evs2) (some r0)).2).getD zeroSnap).collateral tok ∧
      (((calculate_interest_rates evs2
          ((calculate_interest_rates evs1 (some r0)).2)).2).getD zeroSnap).debt tok
        = (((calculate_interest_rates (evs1 ++ evs2) (some r0)).2).getD zeroSnap).debt tok := by
  cases evs1 with
  | nil =>
    intro tok
    rw [List.nil_append]
    exact ⟨rfl, rfl⟩
  | cons e1 t1 =>
    cases evs2 with
    | nil =>
      intro tok
      rw [List.append_nil]
      exact ⟨rfl, rfl⟩
    | cons e2 t2 =>
      intro tok
      have hts1 : ∀ e ∈ e1 :: t1, e.timestamp ≠ 0 :=
        fun e he => hts e (List.mem_append_left _ he)
      have hrel1 : ∀ e ∈ e1 :: t1, relevantTo X e :=
        fun e he => hrel e (List.mem_append_left _ he)
      have hts2 : ∀ e ∈ e2 :: t2, e.timestamp ≠ 0 :=
        fun e he => hts e (List.mem_append_right _ he)
      have hrel2 : ∀ e ∈ e2 :: t2, relevantTo X e :=
        fun e he => hrel e (List.mem_append_right _ he)
      have hainit : alignedOn X (initState e1.block_number (some r0)) := ⟨rfl, h0, rfl⟩
      have haT1 : alignedOn X
          (List.foldl stepState (initState e1.block_number (some r0)) (e1 :: t1)) :=
        fold_aligned X (e1 :: t1) _ hainit hts1 hrel1
      have hag : agreeOn X
          (List.foldl stepState (initState e1.block_number (some r0)) (e1 :: t1))
          (initState e2.block_number (some (build_interest_rate_model
            (List.foldl stepState (initState e1.block_number (some r0)) (e1 :: t1))
            HASHSTACK_ID))) :=
        ⟨haT1.1, rfl, rfl, haT1.2.2, haT1.2.1, fun _ => rfl, fun _ => rfl⟩
      have hfin := fold_agree X (e2 :: t2) _ _ hag hts2 hrel2
      have e_single :
          ((calculate_interest_rates ((e1 :: t1) ++ e2 :: t2) (some r0)).2).getD zeroSnap
          = build_interest_rate_model
              (List.foldl stepState
                (List.foldl stepState (initState e1.block_number (some r0)) (e1 :: t1))
                (e2 :: t2)) HASHSTACK_ID := by
        rw [List.cons_append, calc_snd_cons]
        rw [Option.getD_some]
        congr 1
        simp only [List.foldl_cons, List.foldl_append]
      have e_split :
          ((calculate_interest_rates (e2 :: t2)
              ((calculate_interest_rates (e1 :: t1) (some r0)).2)).2).getD zeroSnap
          = build_interest_rate_model
              (List.foldl stepState (initState e2.block_number (some (build_interest_rate_model
                (List.foldl stepState (initState e1.block_number (some r0)) (e1 :: t1))
                HASHSTACK_ID))) (e2 :: t2)) HASHSTACK_ID := by
        rw [calc_snd_cons, calc_snd_cons, Option.getD_some]
      rw [e_split, e_single]
      exact ⟨(hfin.2.2.2.2.2.1 tok).symm, (hfin.2.2.2.2.2.2 tok).symm⟩

/-- C8 witness: two single-token windows with nonzero timestamps on which the
amended idempotence theorem applies, compared at the token ETH. -/
theorem claim_C8_witness :
    (((calculate_interest_rates [c8w_e2]
        ((calculate_interest_rates [c8w_e1] (some c8w_seed)).2)).2).getD zeroSnap).collateral "ETH"
      = (((calculate_interest_rates ([c8w_e1] ++ [c8w_e2]) (some c8w_seed)).2).getD
          zeroSnap).collateral "ETH" :=
  (claim_C8_amended "ETH" [c8w_e1] [c8w_e2] c8w_seed (by decide)
    (by
      intro e he
      simp only [List.mem_append, List.mem_singleton] at he
      rcases he with he | he <;> subst he <;> decide)
    (by
      intro e he
      simp only [List.mem_append, List.mem_singleton] at he
      rcases he with he | he <;> subst he <;>
        (intro h1 h2; rfl)) "ETH").1
